import Mathlib

/-!
Verification of the settings manager of the incremental-reading add-on
(`ir/settings.py`).  The settings document is a JSON object; we embed JSON
values shallowly, with Python dicts as insertion-ordered association lists,
and translate `SettingsManager.__init__` (the defaults schema),
`loadSettings`, `addMissingSettings`, `removeOutdatedQuickKeys`, the numeric
part of `showDialog`, `saveKeys` and `setQuickKey` into pure Lean functions.
Fallible dictionary accesses return `Except PyError`, mirroring the
exceptions the Python runtime raises on the corresponding operations.
-/

set_option autoImplicit false

/-- A JSON value as produced by `json.load`.  Python distinguishes integer
and floating literals, so we keep two numeric constructors; floats are
represented exactly as rationals (the module never does float arithmetic on
loaded settings, it only stores and compares them). -/
inductive JValue where
  | null
  | bool (b : Bool)
  | int (n : Int)
  | float (q : Rat)
  | str (s : String)
  | arr (xs : List JValue)
  | obj (m : List (String × JValue))

/-- Whether a JSON value is an object (a Python dict). -/
def JValue.isObj : JValue → Bool
  | .obj _ => true
  | _ => false

/-- Python equality between a JSON value and a string (`"k" == v`):
true exactly for the equal string. -/
def eqStr (v : JValue) (s : String) : Bool :=
  match v with
  | .str t => t == s
  | _ => false

/-- Key membership in a dict (`k in d` for a Python dict tests keys). -/
def containsKey (m : List (String × JValue)) (k : String) : Bool :=
  m.any (fun p => p.1 == k)

/-- Dict lookup (first binding of the key; Python dicts have unique keys). -/
def lookupKey (m : List (String × JValue)) (k : String) : Option JValue :=
  match m with
  | [] => none
  | p :: rest => if p.1 == k then some p.2 else lookupKey rest k

/-- Dict assignment `d[k] = v`: replace the value at an existing key in
place, otherwise append the new binding (insertion order). -/
def setKey (m : List (String × JValue)) (k : String) (v : JValue) :
    List (String × JValue) :=
  match m with
  | [] => [(k, v)]
  | p :: rest => if p.1 == k then (p.1, v) :: rest else p :: setKey rest k v

/-- Dict removal `d.pop(k)` (for a key known to be present). -/
def eraseKey (m : List (String × JValue)) (k : String) :
    List (String × JValue) :=
  m.filter (fun p => !(p.1 == k))

/-- Does a character-list occur contiguously at the head of another? -/
def matchesAt (needle hay : List Char) : Bool :=
  match needle, hay with
  | [], _ => true
  | _ :: _, [] => false
  | a :: as, b :: bs => a == b && matchesAt as bs

/-- Does a character-list occur contiguously anywhere in another? -/
def subInList (needle : List Char) (hay : List Char) : Bool :=
  match hay with
  | [] => needle.isEmpty
  | _ :: bs => matchesAt needle hay || subInList needle bs

/-- Python substring test `needle in hay` on strings. -/
def strContainsSub (hay needle : String) : Bool :=
  subInList needle.data hay.data

/-- The exceptions the settings code can raise.  `jsonDecodeError`,
`typeError`, `attributeError` and `keyError` are the Python exceptions the
operations in `loadSettings` actually produce.  `corruptSettingsError` is
modelled from the spec: the spec names a dedicated `CorruptSettingsError`
class, but no source file defines or raises it; the constructor exists so
that statements about that class can be made. -/
inductive PyError where
  | jsonDecodeError
  | typeError
  | attributeError
  | keyError
  | corruptSettingsError
deriving DecidableEq

/-- Python membership test `k in v` for a string key against an arbitrary
value: key test on dicts, element equality on lists, substring test on
strings, `TypeError` otherwise. -/
def pyContains (v : JValue) (k : String) : Except PyError Bool :=
  match v with
  | .obj m => .ok (containsKey m k)
  | .arr xs => .ok (xs.any (fun x => eqStr x k))
  | .str s => .ok (strContainsSub s k)
  | _ => .error .typeError

/-- Python subscript read `v[k]` with a string key: dict lookup (raising
`KeyError` when absent), `TypeError` on every non-dict value. -/
def pyGetItem (v : JValue) (k : String) : Except PyError JValue :=
  match v with
  | .obj m =>
    match lookupKey m k with
    | some w => .ok w
    | none => .error .keyError
  | _ => .error .typeError

/-- Python subscript write `v[k] = w` with a string key: dict assignment,
`TypeError` on every non-dict value. -/
def pySetItem (v : JValue) (k : String) (w : JValue) : Except PyError JValue :=
  match v with
  | .obj m => .ok (.obj (setKey m k w))
  | _ => .error .typeError

/-- Modelled from the spec: the add-on version string comes from
`_version.py`, which is not under src; only its use in the `userAgent`
default matters here and no claim depends on its exact contents. -/
def irVersion : String := "0.0.0"

/-- Modelled from the spec: the project URL comes from `about.py`, which is
not under src; only its use in the `userAgent` default matters here. -/
def irGithubUrl : String := "https://example.invalid/incremental-reading"

/-- The `userAgent` default `'IR/{} (+{})'.format(__version__, IR_GITHUB_URL)`. -/
def userAgentString : String :=
  "IR/" ++ irVersion ++ " (+" ++ irGithubUrl ++ ")"

/-- The defaults schema `self.defaults` from `SettingsManager.__init__`,
in the source's literal order. -/
def defaults : List (String × JValue) :=
  [("badTags", .arr [.str "iframe", .str "script"]),
   ("copyTitle", .bool false),
   ("editExtract", .bool false),
   ("editSource", .bool false),
   ("extractBgColor", .str "Green"),
   ("extractDeck", .null),
   ("extractKey", .str "x"),
   ("extractMethod", .str "percent"),
   ("extractRandom", .bool true),
   ("extractSchedule", .bool true),
   ("extractTextColor", .str "White"),
   ("extractValue", .int 30),
   ("feedLog", .obj []),
   ("generalZoom", .int 1),
   ("highlightBgColor", .str "Yellow"),
   ("highlightKey", .str "h"),
   ("highlightTextColor", .str "Black"),
   ("importDeck", .str "Default"),
   ("laterMethod", .str "percent"),
   ("laterRandom", .bool true),
   ("laterValue", .int 50),
   ("limitWidth", .bool true),
   ("limitWidthAll", .bool false),
   ("lineScrollFactor", .float (1 / 20)),
   ("maxWidth", .int 600),
   ("modelName", .str "IR3"),
   ("pageScrollFactor", .float (1 / 2)),
   ("plainText", .bool false),
   ("quickKeys", .obj []),
   ("removeKey", .str "z"),
   ("scroll", .obj []),
   ("soonMethod", .str "percent"),
   ("soonRandom", .bool true),
   ("soonValue", .int 10),
   ("sourceField", .str "Source"),
   ("textField", .str "Text"),
   ("titleField", .str "Title"),
   ("undoKey", .str "u"),
   ("userAgent", .str userAgentString),
   ("zoom", .obj []),
   ("zoomStep", .float (1 / 10))]

/-- The loop of `addMissingSettings` over a list of default bindings:
`for k, v in defaults: if k not in settings: settings[k] = v;
settingsChanged = True`.  The settings value is a general JSON value, so
the membership test and the assignment can raise. -/
def addMissing (ds : List (String × JValue)) (s : JValue) (c : Bool) :
    Except PyError (JValue × Bool) :=
  match ds with
  | [] => .ok (s, c)
  | (k, v) :: rest =>
    match pyContains s k with
    | .error e => .error e
    | .ok true => addMissing rest s c
    | .ok false =>
      match pySetItem s k v with
      | .error e => .error e
      | .ok s' => addMissing rest s' true

/-- `SettingsManager.addMissingSettings`, acting on the settings value and
the `settingsChanged` flag. -/
def addMissingSettings (s : JValue) (c : Bool) : Except PyError (JValue × Bool) :=
  addMissing defaults s c

/-- The required quick-key fields of `removeOutdatedQuickKeys`, in source
order. -/
def requiredFields : List String :=
  ["alt", "bgColor", "ctrl", "deckName", "editExtract", "editSource",
   "fieldName", "modelName", "regularKey", "shift", "textColor"]

/-- The inner loop of `removeOutdatedQuickKeys` on one entry:
`for k in required: if k not in quickKey: ...drop...; break`.  Returns
whether the entry is to be dropped; the membership test can raise on
non-dict entries. -/
def checkEntry (req : List String) (e : JValue) : Except PyError Bool :=
  match req with
  | [] => .ok false
  | k :: rest =>
    match pyContains e k with
    | .error er => .error er
    | .ok true => checkEntry rest e
    | .ok false => .ok true

/-- The outer loop of `removeOutdatedQuickKeys`: iterate over a copy of the
entries while popping outdated ones from the live dict (`cur`), setting the
modified flag on each removal. -/
def pruneLoop (todo cur : List (String × JValue)) (c : Bool) :
    Except PyError (List (String × JValue) × Bool) :=
  match todo with
  | [] => .ok (cur, c)
  | (combo, entry) :: rest =>
    match checkEntry requiredFields entry with
    | .error e => .error e
    | .ok true => pruneLoop rest (eraseKey cur combo) true
    | .ok false => pruneLoop rest cur c

/-- `SettingsManager.removeOutdatedQuickKeys`: read `settings['quickKeys']`
(KeyError when absent, TypeError on a non-dict settings value), iterate over
a copy of its items dropping entries that miss a required field
(`.copy()`/`.items()` raise `AttributeError` on non-dict values), and write
the mutated dict back in place. -/
def removeOutdatedQuickKeys (s : JValue) (c : Bool) :
    Except PyError (JValue × Bool) :=
  match pyGetItem s "quickKeys" with
  | .error e => .error e
  | .ok (.obj entries) =>
    match pruneLoop entries entries c with
    | .error e => .error e
    | .ok (entries', c') =>
      match pySetItem s "quickKeys" (.obj entries') with
      | .error e => .error e
      | .ok s' => .ok (s', c')
  | .ok _ => .error .attributeError

/-- The state of the settings file at `<mediaDir>/_ir.json`, as observed by
`loadSettings`: absent, present but not valid JSON (`json.load` raises
`json.JSONDecodeError`), or present with a parsed JSON value. -/
inductive FileState where
  | absent
  | invalid
  | valid (v : JValue)

/-- `SettingsManager.loadSettings`: if the file exists, parse it and run
`addMissingSettings` then `removeOutdatedQuickKeys`; otherwise use the
defaults.  Returns the settings document together with the
`settingsChanged` flag (the flag drives the one-time `showInfo` notice). -/
def loadSettings (fs : FileState) : Except PyError (JValue × Bool) :=
  match fs with
  | .absent => .ok (.obj defaults, false)
  | .invalid => .error .jsonDecodeError
  | .valid v =>
    match addMissingSettings v false with
    | .error e => .error e
    | .ok (s1, c1) => removeOutdatedQuickKeys s1 c1

/-- The state of the quick-key form widgets read by `setQuickKey`, in the
order of the dict literal it builds. -/
structure QuickKeyForm where
  deckName : String
  modelName : String
  fieldName : String
  ctrl : Bool
  shift : Bool
  alt : Bool
  regularKey : String
  bgColor : String
  textColor : String
  editExtract : Bool
  editSource : Bool
  plainText : Bool

/-- The dict literal `quickKey` built at the top of `setQuickKey`. -/
def quickKeyToJson (f : QuickKeyForm) : JValue :=
  .obj [("deckName", .str f.deckName),
        ("modelName", .str f.modelName),
        ("fieldName", .str f.fieldName),
        ("ctrl", .bool f.ctrl),
        ("shift", .bool f.shift),
        ("alt", .bool f.alt),
        ("regularKey", .str f.regularKey),
        ("bgColor", .str f.bgColor),
        ("textColor", .str f.textColor),
        ("editExtract", .bool f.editExtract),
        ("editSource", .bool f.editSource),
        ("plainText", .bool f.plainText)]

/-- The `keyCombo` string built in `setQuickKey`: start empty, append
`'Ctrl+'` if ctrl, `'Shift+'` if shift, `'Alt+'` if alt, then the regular
key. -/
def keyCombo (ctrl shift alt : Bool) (regularKey : String) : String :=
  (if ctrl then "Ctrl+" else "") ++
    (if shift then "Shift+" else "") ++
      (if alt then "Alt+" else "") ++ regularKey

/-- The outcome of `setQuickKey`: either the `showInfo` rejection message
(no mutation), or a saved entry under its combo string (with the
`'New shortcut added'` confirmation). -/
inductive SetQuickKeyOutcome where
  | rejected
  | saved (combo : String)
deriving DecidableEq

/-- `SettingsManager.setQuickKey`, acting on the `quickKeys` dict:
`for k in ['deckName', 'modelName', 'regularKey']: if not quickKey[k]:
showInfo(...); return` (an empty string is falsy), then store the entry
under its derived combo string. -/
def setQuickKey (quickKeys : List (String × JValue)) (f : QuickKeyForm) :
    List (String × JValue) × SetQuickKeyOutcome :=
  if f.deckName = "" then (quickKeys, .rejected)
  else if f.modelName = "" then (quickKeys, .rejected)
  else if f.regularKey = "" then (quickKeys, .rejected)
  else
    (setKey quickKeys (keyCombo f.ctrl f.shift f.alt f.regularKey)
       (quickKeyToJson f),
     .saved (keyCombo f.ctrl f.shift f.alt f.regularKey))

/-- The items of the three basic-key combo boxes in `createGeneralTab`:
`list('ABCDEFGHIJKLMNOPQRSTUVWXYZ123456789')`. -/
def keyChoices : List String :=
  "ABCDEFGHIJKLMNOPQRSTUVWXYZ123456789".data.map String.singleton

/-- The lowercase letters and digits the basic keys can be stored as. -/
def lowerKeyChoices : List String :=
  "abcdefghijklmnopqrstuvwxyz123456789".data.map String.singleton

/-- Python `str.lower()`: lowercase every character (for the ASCII
letters and digits used here, `Char.toLower` per character). -/
def pyLower (s : String) : String :=
  ⟨s.data.map Char.toLower⟩

/-- `SettingsManager.saveKeys`, on the current texts of the three combo
boxes: if `len(set(keys)) < 3` show the conflict notice and change nothing
(the combo boxes are reset, not the document), else store the lowercased
selections.  The boolean records whether the conflict notice was shown. -/
def saveKeys (m : List (String × JValue)) (e h r : String) :
    List (String × JValue) × Bool :=
  if [e, h, r].dedup.length < 3 then (m, true)
  else
    (setKey (setKey (setKey m "extractKey" (.str (pyLower e)))
        "highlightKey" (.str (pyLower h)))
      "removeKey" (.str (pyLower r)),
     false)

/-- One decimal digit's value. -/
def digitVal (c : Char) : Nat := c.toNat - '0'.toNat

/-- Digits of a Python integer literal after the first: decimal digits with
single underscores allowed between digits only. -/
def parseDigitsAux (cs : List Char) (acc : Nat) : Option Nat :=
  match cs with
  | [] => some acc
  | c :: rest =>
    if c.isDigit then parseDigitsAux rest (acc * 10 + digitVal c)
    else if c = '_' then
      match rest with
      | [] => none
      | d :: rest2 =>
        if d.isDigit then parseDigitsAux rest2 (acc * 10 + digitVal d)
        else none
    else none

/-- A nonempty run of decimal digits (with legal underscores). -/
def parseDigits (cs : List Char) : Option Nat :=
  match cs with
  | [] => none
  | c :: rest => if c.isDigit then parseDigitsAux rest (digitVal c) else none

/-- Python `int(text)` on a string: strip surrounding whitespace, optional
single sign, then decimal digits; `None` models the `ValueError`. -/
def parseInt? (s : String) : Option Int :=
  let cs :=
    ((s.data.dropWhile Char.isWhitespace).reverse.dropWhile
      Char.isWhitespace).reverse
  match cs with
  | '+' :: rest => (parseDigits rest).map Int.ofNat
  | '-' :: rest => (parseDigits rest).map (fun n => -(Int.ofNat n))
  | _ => (parseDigits cs).map Int.ofNat

/-- The numeric part of `SettingsManager.showDialog`'s save path: the
`try` block assigns `soonValue`, `laterValue`, `extractValue`, `maxWidth`
in that order from `int(...)` of the four edit-box texts; the first
`ValueError` aborts the remaining assignments and shows the warning (the
boolean records whether the warning was shown).  Assignments made before
the failure stay in place. -/
def showDialogNumeric (m : List (String × JValue))
    (soonText laterText extractText widthText : String) :
    List (String × JValue) × Bool :=
  match parseInt? soonText with
  | none => (m, true)
  | some sv =>
    let m1 := setKey m "soonValue" (.int sv)
    match parseInt? laterText with
    | none => (m1, true)
    | some lv =>
      let m2 := setKey m1 "laterValue" (.int lv)
      match parseInt? extractText with
      | none => (m2, true)
      | some ev =>
        let m3 := setKey m2 "extractValue" (.int ev)
        match parseInt? widthText with
        | none => (m3, true)
        | some wv => (setKey m3 "maxWidth" (.int wv), false)

/-- Whether a quick-key entry value has every required field: a dict with
all of `requiredFields` present.  This is the predicate
`removeOutdatedQuickKeys`'s inner loop decides for dict entries. -/
def entryCompleteV (v : JValue) : Bool :=
  match v with
  | .obj fields => requiredFields.all (fun k => containsKey fields k)
  | _ => false

/-- A quick-key entry with all eleven required fields (the spec's pruning
example, entry `"A"`). -/
def qkCompleteEntry : JValue :=
  .obj [("alt", .bool false),
        ("bgColor", .str "Green"),
        ("ctrl", .bool true),
        ("deckName", .str "Default"),
        ("editExtract", .bool false),
        ("editSource", .bool false),
        ("fieldName", .str "Text"),
        ("modelName", .str "IR3"),
        ("regularKey", .str "1"),
        ("shift", .bool false),
        ("textColor", .str "White")]

/-- A quick-key entry missing `deckName` (the spec's pruning example,
entry `"B"`). -/
def qkBrokenEntry : JValue :=
  .obj [("alt", .bool false),
        ("bgColor", .str "Green"),
        ("ctrl", .bool true),
        ("editExtract", .bool false),
        ("editSource", .bool false),
        ("fieldName", .str "Text"),
        ("modelName", .str "IR3"),
        ("regularKey", .str "2"),
        ("shift", .bool false),
        ("textColor", .str "White")]

/-- A fully filled quick-key form with ctrl and alt held and regular key
`"7"`. -/
def qkForm7 : QuickKeyForm :=
  { deckName := "Default", modelName := "IR3", fieldName := "Text",
    ctrl := true, shift := false, alt := true, regularKey := "7",
    bgColor := "Green", textColor := "White",
    editExtract := false, editSource := false, plainText := false }

/-- A quick-key form with an empty destination deck (the spec's rejection
scenario: deckName empty, modelName `"Basic"`, regularKey `"A"`). -/
def qkFormNoDeck : QuickKeyForm :=
  { deckName := "", modelName := "Basic", fieldName := "Text",
    ctrl := true, shift := false, alt := false, regularKey := "A",
    bgColor := "Green", textColor := "White",
    editExtract := false, editSource := false, plainText := false }

theorem containsKey_nil (k : String) : containsKey [] k = false := rfl

theorem containsKey_cons (p : String × JValue) (rest : List (String × JValue))
    (k : String) : containsKey (p :: rest) k = (p.1 == k || containsKey rest k) := by
  simp [containsKey]

theorem containsKey_append (m l : List (String × JValue)) (k : String) :
    containsKey (m ++ l) k = (containsKey m k || containsKey l k) := by
  simp [containsKey]

theorem containsKey_of_mem (m : List (String × JValue)) (k : String)
    (v : JValue) (h : (k, v) ∈ m) : containsKey m k = true := by
  simp only [containsKey, List.any_eq_true]
  exact ⟨(k, v), h, by simp⟩

theorem lookup_setKey_self (m : List (String × JValue)) (k : String)
    (v : JValue) : lookupKey (setKey m k v) k = some v := by
  induction m with
  | nil => simp [setKey, lookupKey]
  | cons p rest ih =>
    by_cases h : p.1 = k
    · simp [setKey, lookupKey, h]
    · simp [setKey, lookupKey, h, ih]

theorem lookup_setKey_ne (m : List (String × JValue)) (k k' : String)
    (v : JValue) (h : k' ≠ k) :
    lookupKey (setKey m k v) k' = lookupKey m k' := by
  have hk : ¬(k = k') := fun hk => h hk.symm
  induction m with
  | nil => simp [setKey, lookupKey, hk]
  | cons p rest ih =>
    by_cases hp : p.1 = k
    · simp [setKey, lookupKey, hp, hk]
    · simp [setKey, lookupKey, hp, ih]

theorem setKey_of_not_contains (m : List (String × JValue)) (k : String)
    (v : JValue) (h : containsKey m k = false) :
    setKey m k v = m ++ [(k, v)] := by
  induction m with
  | nil => rfl
  | cons p rest ih =>
    rw [containsKey_cons] at h
    have h1 : (p.1 == k) = false := by
      cases hb : (p.1 == k) <;> simp [hb] at h ⊢
    have h2 : containsKey rest k = false := by
      cases hb : containsKey rest k <;> simp [hb, h1] at h ⊢
    simp [setKey, h1, ih h2]

theorem lookup_append_left (m l : List (String × JValue)) (k : String)
    (h : containsKey m k = true) :
    lookupKey (m ++ l) k = lookupKey m k := by
  induction m with
  | nil => simp [containsKey] at h
  | cons p rest ih =>
    rw [containsKey_cons] at h
    by_cases hp : p.1 = k
    · simp [lookupKey, hp]
    · have : containsKey rest k = true := by
        simpa [hp] using h
      simp [lookupKey, hp, ih this]

theorem lookup_append_right (m l : List (String × JValue)) (k : String)
    (h : containsKey m k = false) :
    lookupKey (m ++ l) k = lookupKey l k := by
  induction m with
  | nil => simp
  | cons p rest ih =>
    rw [containsKey_cons] at h
    have h1 : (p.1 == k) = false := by
      cases hb : (p.1 == k) <;> simp [hb] at h ⊢
    have h2 : containsKey rest k = false := by
      cases hb : containsKey rest k <;> simp [hb, h1] at h ⊢
    have hp : ¬(p.1 = k) := by simpa using h1
    simp [lookupKey, hp, ih h2]

theorem lookup_not_contains (m : List (String × JValue)) (k : String)
    (h : containsKey m k = false) : lookupKey m k = none := by
  induction m with
  | nil => rfl
  | cons p rest ih =>
    rw [containsKey_cons] at h
    have h1 : (p.1 == k) = false := by
      cases hb : (p.1 == k) <;> simp [hb] at h ⊢
    have h2 : containsKey rest k = false := by
      cases hb : containsKey rest k <;> simp [hb, h1] at h ⊢
    have hp : ¬(p.1 = k) := by simpa using h1
    simp [lookupKey, hp, ih h2]

theorem lookup_mem_nodup (m : List (String × JValue)) (k : String) (v : JValue)
    (hnd : (m.map Prod.fst).Nodup) (hm : (k, v) ∈ m) :
    lookupKey m k = some v := by
  induction m with
  | nil => simp at hm
  | cons p rest ih =>
    rw [List.map_cons, List.nodup_cons] at hnd
    rcases List.mem_cons.mp hm with heq | hmem
    · rw [← heq]
      simp [lookupKey]
    · have hp : ¬(p.1 = k) := by
        intro hk
        exact hnd.1 (hk ▸ (List.mem_map.mpr ⟨(k, v), hmem, rfl⟩))
      simp [lookupKey, hp, ih hnd.2 hmem]

theorem listAny_congr {α : Type} (l : List α) (p q : α → Bool)
    (h : ∀ a ∈ l, p a = q a) : l.any p = l.any q := by
  induction l with
  | nil => rfl
  | cons a rest ih =>
    simp only [List.any_cons]
    rw [h a (List.mem_cons_self a rest),
      ih (fun b hb => h b (List.mem_cons_of_mem a hb))]

theorem listFilter_congr {α : Type} (l : List α) (p q : α → Bool)
    (h : ∀ a ∈ l, p a = q a) : l.filter p = l.filter q := by
  induction l with
  | nil => rfl
  | cons a rest ih =>
    rw [List.filter_cons, List.filter_cons, h a (List.mem_cons_self a rest),
      ih (fun b hb => h b (List.mem_cons_of_mem a hb))]

/-- On a dict, one pass of the reconciliation loop appends exactly the
default bindings whose keys are absent, and reports a change exactly when
one was appended. -/
theorem addMissing_obj (ds : List (String × JValue))
    (hnd : (ds.map Prod.fst).Nodup) (m : List (String × JValue)) (c : Bool) :
    addMissing ds (.obj m) c =
      .ok (.obj (m ++ ds.filter (fun p => !containsKey m p.1)),
        c || ds.any (fun p => !containsKey m p.1)) := by
  induction ds generalizing m c with
  | nil => simp [addMissing]
  | cons p rest ih =>
    rw [List.map_cons, List.nodup_cons] at hnd
    obtain ⟨k, v⟩ := p
    cases hc : containsKey m k with
    | true =>
      simp only [addMissing, pyContains, hc]
      rw [ih hnd.2 m c, List.filter_cons, List.any_cons]
      simp [hc]
    | false =>
      simp only [addMissing, pyContains, hc, pySetItem]
      rw [setKey_of_not_contains m k v hc, ih hnd.2 (m ++ [(k, v)]) true]
      have hrest : ∀ q ∈ rest,
          (!containsKey (m ++ [(k, v)]) q.1) = (!containsKey m q.1) := by
        intro q hq
        rw [containsKey_append]
        have hkq : (k == q.1) = false := by
          have : q.1 ∈ rest.map Prod.fst := List.mem_map.mpr ⟨q, hq, rfl⟩
          cases hb : (k == q.1)
          · rfl
          · exact absurd (by rwa [eq_of_beq hb]) hnd.1
        simp [containsKey, hkq]
      rw [listFilter_congr rest _ _ hrest, listAny_congr rest _ _ hrest,
        List.filter_cons, List.any_cons]
      simp [hc, List.append_assoc]

theorem defaults_keys_nodup : (defaults.map Prod.fst).Nodup := by decide

theorem quickKeys_mem_defaults : ("quickKeys", JValue.obj []) ∈ defaults := by
  simp [defaults]

theorem nodup_filter_keys (l : List (String × JValue))
    (p : String × JValue → Bool) (h : (l.map Prod.fst).Nodup) :
    ((l.filter p).map Prod.fst).Nodup :=
  List.Nodup.sublist ((l.filter_sublist).map Prod.fst) h

/-- Claim C1: for every parsed settings dict, after `addMissingSettings`
the key set is a superset of the default schema's keys, every key that was
absent is bound to its default value, and every key that was present keeps
its original value. -/
theorem addMissingSettings_complete (m : List (String × JValue)) :
    ∃ m' c, addMissingSettings (.obj m) false = .ok (.obj m', c) ∧
      (∀ k v, (k, v) ∈ defaults → containsKey m' k = true) ∧
      (∀ k v, (k, v) ∈ defaults → containsKey m k = false →
        lookupKey m' k = some v) ∧
      (∀ k, containsKey m k = true → lookupKey m' k = lookupKey m k) := by
  refine ⟨m ++ defaults.filter (fun p => !containsKey m p.1), _,
    addMissing_obj defaults defaults_keys_nodup m false, ?_, ?_, ?_⟩
  · intro k v hm
    by_cases hc : containsKey m k = true
    · rw [containsKey_append, hc]
      rfl
    · have hc' : containsKey m k = false := by
        cases hb : containsKey m k
        · rfl
        · exact absurd hb hc
      have hmem : (k, v) ∈ defaults.filter (fun p => !containsKey m p.1) :=
        List.mem_filter.mpr ⟨hm, by simp [hc']⟩
      rw [containsKey_append, containsKey_of_mem _ _ _ hmem]
      simp
  · intro k v hm hc
    rw [lookup_append_right m _ k hc]
    exact lookup_mem_nodup _ _ _
      (nodup_filter_keys defaults _ defaults_keys_nodup)
      (List.mem_filter.mpr ⟨hm, by simp [hc]⟩)
  · intro k hc
    exact lookup_append_left m _ k hc

theorem addMissingSettings_complete_witness :
    ∃ m' c, addMissingSettings (.obj [("soonValue", .int 77)]) false =
        .ok (.obj m', c) ∧
      containsKey m' "quickKeys" = true ∧
      lookupKey m' "extractKey" = some (.str "x") ∧
      lookupKey m' "soonValue" = some (.int 77) := by
  obtain ⟨m', c, h1, h2, h3, h4⟩ :=
    addMissingSettings_complete [("soonValue", .int 77)]
  refine ⟨m', c, h1, h2 "quickKeys" (.obj []) quickKeys_mem_defaults,
    h3 "extractKey" (.str "x") (by simp [defaults]) (by decide), ?_⟩
  rw [h4 "soonValue" (by decide)]
  rfl

/-- Claim C3: reconciling a document that already has every default key
changes nothing and leaves the `settingsChanged` flag unset. -/
theorem addMissingSettings_idempotent (m : List (String × JValue))
    (h : ∀ p ∈ defaults, containsKey m p.1 = true) :
    addMissingSettings (.obj m) false = .ok (.obj m, false) := by
  rw [addMissingSettings, addMissing_obj defaults defaults_keys_nodup m false]
  have hf : defaults.filter (fun p => !containsKey m p.1) = [] := by
    rw [List.filter_eq_nil_iff]
    intro p hp
    simp [h p hp]
  have ha : defaults.any (fun p => !containsKey m p.1) = false := by
    rw [List.any_eq_false]
    intro p hp
    simp [h p hp]
  rw [hf, ha]
  simp

theorem addMissingSettings_idempotent_witness :
    addMissingSettings (.obj defaults) false = .ok (.obj defaults, false) :=
  addMissingSettings_idempotent defaults (by decide)

/-- Claim C8: with no settings file, `loadSettings` returns the full
default schema and does not trigger the modification notice. -/
theorem loadSettings_fresh_install :
    loadSettings .absent = .ok (.obj defaults, false) := rfl

theorem pyContains_error (s : JValue) (k : String) (e : PyError)
    (h : pyContains s k = .error e) : e = .typeError := by
  cases s <;> simp_all [pyContains]

theorem pySetItem_nonobj (s : JValue) (k : String) (v : JValue)
    (h : s.isObj = false) : pySetItem s k v = .error .typeError := by
  cases s <;> simp_all [pySetItem, JValue.isObj]

theorem pyGetItem_nonobj (s : JValue) (k : String)
    (h : s.isObj = false) : pyGetItem s k = .error .typeError := by
  cases s <;> simp_all [pyGetItem, JValue.isObj]

/-- On a non-dict settings value the reconciliation loop either raises
`TypeError` or passes the value through unchanged. -/
theorem addMissing_nonobj (ds : List (String × JValue)) (s : JValue)
    (h : s.isObj = false) (c : Bool) :
    addMissing ds s c = .error .typeError ∨ addMissing ds s c = .ok (s, c) := by
  induction ds generalizing c with
  | nil => exact Or.inr rfl
  | cons p rest ih =>
    obtain ⟨k, v⟩ := p
    rcases hpc : pyContains s k with e | b
    · left
      simp [addMissing, hpc, pyContains_error s k e hpc]
    · cases b
      · left
        simp [addMissing, hpc, pySetItem_nonobj s k v h]
      · simpa [addMissing, hpc] using ih c

/-- A non-dict top-level JSON value always makes `loadSettings` raise
`TypeError`: either the membership test or assignment in
`addMissingSettings` raises, or the `settings['quickKeys']` read in
`removeOutdatedQuickKeys` does. -/
theorem loadSettings_nonobj (v : JValue) (h : v.isObj = false) :
    loadSettings (.valid v) = .error .typeError := by
  rcases addMissing_nonobj defaults v h false with hc | hc
  · simp [loadSettings, addMissingSettings, hc]
  · simp [loadSettings, addMissingSettings, hc, removeOutdatedQuickKeys,
      pyGetItem_nonobj v "quickKeys" h]

/-- Claim C4 counterexample: on a file with invalid JSON, `loadSettings`
fails with the propagated `json.JSONDecodeError`, which is not the
`CorruptSettingsError` the claim names (no source file defines that
class). -/
theorem loadSettings_corrupt_counterexample :
    loadSettings .invalid = .error .jsonDecodeError ∧
      PyError.jsonDecodeError ≠ PyError.corruptSettingsError :=
  ⟨rfl, by decide⟩

/-- Claim C4 as amended: invalid JSON propagates `json.JSONDecodeError`,
a non-mapping top level propagates `TypeError` (both are failures of the
whole load, with no recovery, and neither is a dedicated
`CorruptSettingsError`), while an absent file returns the defaults without
error — so failure is distinguishable from the file-absent case. -/
theorem loadSettings_corrupt_amended :
    loadSettings .invalid = .error .jsonDecodeError ∧
      (∀ v : JValue, v.isObj = false →
        loadSettings (.valid v) = .error .typeError) ∧
      PyError.jsonDecodeError ≠ PyError.corruptSettingsError ∧
      PyError.typeError ≠ PyError.corruptSettingsError ∧
      loadSettings .absent = .ok (.obj defaults, false) :=
  ⟨rfl, loadSettings_nonobj, by decide, by decide, rfl⟩

theorem loadSettings_corrupt_amended_witness :
    loadSettings (.valid (.arr [])) = .error .typeError :=
  loadSettings_corrupt_amended.2.1 (.arr []) rfl

theorem checkEntry_obj (req : List String) (fields : List (String × JValue)) :
    checkEntry req (.obj fields) =
      .ok (!req.all (fun k => containsKey fields k)) := by
  induction req with
  | nil => rfl
  | cons k rest ih =>
    simp only [checkEntry, pyContains]
    cases hc : containsKey fields k
    · simp [hc]
    · simp [hc, ih]

/-- The pruning loop over dict entries: it folds the drop-or-keep step over
the copied item list and reports a change exactly when some entry was
dropped. -/
theorem pruneLoop_fold (todo : List (String × JValue))
    (h : ∀ p ∈ todo, p.2.isObj = true) (cur : List (String × JValue))
    (c : Bool) :
    pruneLoop todo cur c = .ok
      (todo.foldl
        (fun acc p => if entryCompleteV p.2 then acc else eraseKey acc p.1) cur,
       c || todo.any (fun p => !entryCompleteV p.2)) := by
  induction todo generalizing cur c with
  | nil => simp [pruneLoop]
  | cons p rest ih =>
    obtain ⟨combo, entry⟩ := p
    obtain ⟨fields, rfl⟩ : ∃ fields, entry = .obj fields := by
      have hp := h (combo, entry) (List.mem_cons_self _ _)
      cases entry <;> simp_all [JValue.isObj]
    have hrest : ∀ p ∈ rest, p.2.isObj = true :=
      fun p hp => h p (List.mem_cons_of_mem _ hp)
    simp only [pruneLoop, checkEntry_obj]
    cases hc : requiredFields.all (fun k => containsKey fields k)
    · simp only [Bool.not_false]
      rw [ih hrest (eraseKey cur combo) true]
      simp [entryCompleteV, hc]
    · simp only [Bool.not_true]
      rw [ih hrest cur c]
      simp [entryCompleteV, hc]

theorem eraseKey_cons_ne (c0 combo : String) (e0 : JValue)
    (cur : List (String × JValue)) (h : combo ≠ c0) :
    eraseKey ((c0, e0) :: cur) combo = (c0, e0) :: eraseKey cur combo := by
  have hb : (c0 == combo) = false := by
    simp [Ne.symm h]
  simp [eraseKey, List.filter_cons, hb]

theorem foldErase_cons (todo : List (String × JValue)) (c0 : String)
    (e0 : JValue) (h : c0 ∉ todo.map Prod.fst) (cur : List (String × JValue)) :
    todo.foldl
        (fun acc p => if entryCompleteV p.2 then acc else eraseKey acc p.1)
        ((c0, e0) :: cur) =
      (c0, e0) :: todo.foldl
        (fun acc p => if entryCompleteV p.2 then acc else eraseKey acc p.1)
        cur := by
  induction todo generalizing cur with
  | nil => rfl
  | cons p rest ih =>
    obtain ⟨combo, entry⟩ := p
    have hne : combo ≠ c0 := by
      intro he
      exact h (by simp [he])
    have hrest : c0 ∉ rest.map Prod.fst := by
      intro hm
      exact h (by simp [hm])
    simp only [List.foldl_cons]
    cases hc : entryCompleteV entry
    · simp only [hc, if_neg Bool.false_ne_true,
        eraseKey_cons_ne c0 combo e0 cur hne]
      exact ih hrest (eraseKey cur combo)
    · simp only [hc, if_pos rfl]
      exact ih hrest cur

theorem eraseKey_not_mem (l : List (String × JValue)) (k : String)
    (h : k ∉ l.map Prod.fst) : eraseKey l k = l := by
  rw [eraseKey, List.filter_eq_self]
  intro p hp
  have : p.1 ≠ k := by
    intro he
    exact h (he ▸ List.mem_map.mpr ⟨p, hp, rfl⟩)
  simp [this]

/-- Folding the drop-or-keep step of the pruning loop over the live dict
itself keeps exactly the complete entries, in order. -/
theorem foldErase_filter (entries : List (String × JValue))
    (hnd : (entries.map Prod.fst).Nodup) :
    entries.foldl
        (fun acc p => if entryCompleteV p.2 then acc else eraseKey acc p.1)
        entries =
      entries.filter (fun p => entryCompleteV p.2) := by
  induction entries with
  | nil => rfl
  | cons p rest ih =>
    obtain ⟨combo, entry⟩ := p
    rw [List.map_cons, List.nodup_cons] at hnd
    simp only [List.foldl_cons, List.filter_cons]
    cases hc : entryCompleteV entry
    · have h1 : eraseKey ((combo, entry) :: rest) combo = rest := by
        have h2 : eraseKey rest combo = rest := eraseKey_not_mem rest combo hnd.1
        simp [eraseKey, List.filter_cons] at h2 ⊢
        exact h2
      simp only [hc, if_neg Bool.false_ne_true, h1, Bool.false_eq_true]
      exact ih hnd.2
    · simp [hc]
      rw [foldErase_cons rest combo entry hnd.1 rest, ih hnd.2]

/-- Claim C2: on a settings dict whose `quickKeys` entries are dicts,
`removeOutdatedQuickKeys` deletes exactly the entries missing a required
field, keeps every complete entry unchanged (in order), reports a change
exactly when some entry was deleted, and touches no other settings key. -/
theorem removeOutdatedQuickKeys_prunes (m entries : List (String × JValue))
    (hq : lookupKey m "quickKeys" = some (.obj entries))
    (hobj : ∀ p ∈ entries, p.2.isObj = true)
    (hnd : (entries.map Prod.fst).Nodup) :
    ∃ m', removeOutdatedQuickKeys (.obj m) false =
        .ok (.obj m', entries.any (fun p => !entryCompleteV p.2)) ∧
      lookupKey m' "quickKeys" =
        some (.obj (entries.filter (fun p => entryCompleteV p.2))) ∧
      (∀ k, k ≠ "quickKeys" → lookupKey m' k = lookupKey m k) := by
  refine ⟨setKey m "quickKeys"
      (.obj (entries.filter (fun p => entryCompleteV p.2))), ?_,
    lookup_setKey_self _ _ _, fun k hk => lookup_setKey_ne m _ k _ hk⟩
  simp only [removeOutdatedQuickKeys, pyGetItem, hq]
  rw [pruneLoop_fold entries hobj entries false,
    foldErase_filter entries hnd]
  simp [pySetItem]

theorem removeOutdatedQuickKeys_prunes_witness :
    ∃ m', removeOutdatedQuickKeys
        (.obj [("quickKeys",
          .obj [("A", qkCompleteEntry), ("B", qkBrokenEntry)])]) false =
      .ok (.obj m', true) ∧
      lookupKey m' "quickKeys" = some (.obj [("A", qkCompleteEntry)]) := by
  obtain ⟨m', h1, h2, h3⟩ := removeOutdatedQuickKeys_prunes
    [("quickKeys", .obj [("A", qkCompleteEntry), ("B", qkBrokenEntry)])]
    [("A", qkCompleteEntry), ("B", qkBrokenEntry)] rfl (by decide) (by decide)
  exact ⟨m', h1, h2⟩

/-- Claim C10: loading an existing file whose top level is a dict with no
`quickKeys` key succeeds: `addMissingSettings` runs first and inserts the
default `{}`, so the `settings['quickKeys']` read in
`removeOutdatedQuickKeys` finds a dict and never raises `KeyError`. -/
theorem loadSettings_quickKeys_safe (m : List (String × JValue))
    (h : containsKey m "quickKeys" = false) :
    ∃ m', loadSettings (.valid (.obj m)) = .ok (.obj m', true) ∧
      lookupKey m' "quickKeys" = some (.obj []) := by
  have hfmem : ("quickKeys", JValue.obj []) ∈
      defaults.filter (fun p => !containsKey m p.1) :=
    List.mem_filter.mpr ⟨quickKeys_mem_defaults, by simp [h]⟩
  have hlk : lookupKey (m ++ defaults.filter (fun p => !containsKey m p.1))
      "quickKeys" = some (.obj []) := by
    rw [lookup_append_right m _ _ h]
    exact lookup_mem_nodup _ _ _
      (nodup_filter_keys defaults _ defaults_keys_nodup) hfmem
  have hany : defaults.any (fun p => !containsKey m p.1) = true :=
    List.any_eq_true.mpr ⟨("quickKeys", .obj []), quickKeys_mem_defaults,
      by simp [h]⟩
  refine ⟨setKey (m ++ defaults.filter (fun p => !containsKey m p.1))
      "quickKeys" (.obj []), ?_, lookup_setKey_self _ _ _⟩
  simp only [loadSettings, addMissingSettings]
  rw [addMissing_obj defaults defaults_keys_nodup m false, hany]
  simp only [Bool.or_true]
  simp only [removeOutdatedQuickKeys, pyGetItem, hlk]
  simp [pruneLoop, pySetItem]

theorem loadSettings_quickKeys_safe_witness :
    ∃ m', loadSettings (.valid (.obj [])) = .ok (.obj m', true) ∧
      lookupKey m' "quickKeys" = some (.obj []) :=
  loadSettings_quickKeys_safe [] rfl

/-- Claim C6: the combo string concatenates, in fixed order, `"Ctrl+"`,
`"Shift+"`, `"Alt+"` as flagged and then the regular key (so ctrl and alt
with `"7"` give `"Ctrl+Alt+7"`), and a valid save stores the entry in
`quickKeys` under that string, overwriting any prior binding of the same
combo. -/
theorem setQuickKey_combo :
    keyCombo true false true "7" = "Ctrl+Alt+7" ∧
      ∀ (qk : List (String × JValue)) (f : QuickKeyForm),
        f.deckName ≠ "" → f.modelName ≠ "" → f.regularKey ≠ "" →
          setQuickKey qk f =
            (setKey qk (keyCombo f.ctrl f.shift f.alt f.regularKey)
              (quickKeyToJson f),
             .saved (keyCombo f.ctrl f.shift f.alt f.regularKey)) ∧
          lookupKey (setQuickKey qk f).1
              (keyCombo f.ctrl f.shift f.alt f.regularKey) =
            some (quickKeyToJson f) := by
  refine ⟨rfl, fun qk f h1 h2 h3 => ?_⟩
  have he : setQuickKey qk f =
      (setKey qk (keyCombo f.ctrl f.shift f.alt f.regularKey)
        (quickKeyToJson f),
       .saved (keyCombo f.ctrl f.shift f.alt f.regularKey)) := by
    simp [setQuickKey, h1, h2, h3]
  refine ⟨he, ?_⟩
  rw [he]
  exact lookup_setKey_self _ _ _

theorem setQuickKey_combo_witness :
    lookupKey (setQuickKey [("Ctrl+Alt+7", .str "old")] qkForm7).1
        "Ctrl+Alt+7" = some (quickKeyToJson qkForm7) :=
  (setQuickKey_combo.2 [("Ctrl+Alt+7", .str "old")] qkForm7
    (by decide) (by decide) (by decide)).2

/-- Claim C7: a candidate quick-key entry is rejected (message shown, no
mutation) exactly when at least one of deckName, modelName, regularKey is
empty, and rejection leaves the `quickKeys` dict unchanged. -/
theorem setQuickKey_validation (qk : List (String × JValue))
    (f : QuickKeyForm) :
    ((setQuickKey qk f).2 = .rejected ↔
      (f.deckName = "" ∨ f.modelName = "" ∨ f.regularKey = "")) ∧
    ((setQuickKey qk f).2 = .rejected → (setQuickKey qk f).1 = qk) := by
  by_cases h1 : f.deckName = ""
  · simp [setQuickKey, h1]
  · by_cases h2 : f.modelName = ""
    · simp [setQuickKey, h1, h2]
    · by_cases h3 : f.regularKey = ""
      · simp [setQuickKey, h1, h2, h3]
      · simp [setQuickKey, h1, h2, h3]

theorem setQuickKey_validation_witness :
    (setQuickKey [("Ctrl+K", qkCompleteEntry)] qkFormNoDeck).2 =
        .rejected ∧
      (setQuickKey [("Ctrl+K", qkCompleteEntry)] qkFormNoDeck).1 =
        [("Ctrl+K", qkCompleteEntry)] := by
  have h := setQuickKey_validation [("Ctrl+K", qkCompleteEntry)] qkFormNoDeck
  have hr := h.1.mpr (Or.inl rfl)
  exact ⟨hr, h.2 hr⟩

/-- `len(set([e, h, r])) < 3` holds exactly when two of the three selected
key texts coincide. -/
theorem dedup_three_lt (e h r : String) :
    ([e, h, r].dedup.length < 3) ↔ (e = h ∨ e = r ∨ h = r) := by
  by_cases h3 : h = r
  · subst h3
    have hd : ([h, h] : List String).dedup = [h] := by
      rw [List.dedup_cons_of_mem (by simp),
        List.dedup_cons_of_not_mem (List.not_mem_nil h), List.dedup_nil]
    by_cases he : e ∈ ([h, h] : List String)
    · have hde : ([e, h, h] : List String).dedup = [h] := by
        rw [List.dedup_cons_of_mem he, hd]
      simp [hde]
    · have hde : ([e, h, h] : List String).dedup = [e, h] := by
        rw [List.dedup_cons_of_not_mem he, hd]
      simp [hde]
  · have hd : ([h, r] : List String).dedup = [h, r] := by
      rw [List.dedup_cons_of_not_mem (by simp [h3]),
        List.dedup_cons_of_not_mem (List.not_mem_nil r), List.dedup_nil]
    by_cases he : e ∈ ([h, r] : List String)
    · have hde : ([e, h, r] : List String).dedup = [h, r] := by
        rw [List.dedup_cons_of_mem he, hd]
      simp only [List.mem_cons, List.mem_singleton, List.not_mem_nil,
        or_false] at he
      constructor
      · intro _
        rcases he with he | he
        · exact Or.inl he
        · exact Or.inr (Or.inl he)
      · intro _
        simp [hde]
    · have hde : ([e, h, r] : List String).dedup = [e, h, r] := by
        rw [List.dedup_cons_of_not_mem he, hd]
      simp only [List.mem_cons, List.mem_singleton, List.not_mem_nil,
        or_false, not_or] at he
      simp [hde, he.1, he.2, h3]

/-- Claim C9: when the three selected basic keys are pairwise distinct,
`saveKeys` stores the lowercase form of each selection (and every
selectable choice lowercases to a lowercase letter or digit); on a
conflict it shows the notice and leaves the document unchanged. -/
theorem saveKeys_lowercase (m : List (String × JValue)) (e h r : String)
    (he : e ∈ keyChoices) (hh : h ∈ keyChoices) (hr : r ∈ keyChoices) :
    ((e ≠ h ∧ e ≠ r ∧ h ≠ r) →
      (saveKeys m e h r).2 = false ∧
      lookupKey (saveKeys m e h r).1 "extractKey" =
        some (.str (pyLower e)) ∧
      lookupKey (saveKeys m e h r).1 "highlightKey" =
        some (.str (pyLower h)) ∧
      lookupKey (saveKeys m e h r).1 "removeKey" =
        some (.str (pyLower r)) ∧
      pyLower e ∈ lowerKeyChoices ∧ pyLower h ∈ lowerKeyChoices ∧
      pyLower r ∈ lowerKeyChoices) ∧
    ((e = h ∨ e = r ∨ h = r) → saveKeys m e h r = (m, true)) := by
  have hlower : ∀ s ∈ keyChoices, pyLower s ∈ lowerKeyChoices := by decide
  constructor
  · rintro ⟨h1, h2, h3⟩
    have hc : ¬([e, h, r].dedup.length < 3) := by
      rw [dedup_three_lt]
      simp [h1, h2, h3]
    have hs : saveKeys m e h r =
        (setKey (setKey (setKey m "extractKey" (.str (pyLower e)))
            "highlightKey" (.str (pyLower h)))
          "removeKey" (.str (pyLower r)),
         false) := by
      simp [saveKeys, hc]
    rw [hs]
    refine ⟨rfl, ?_, ?_, ?_, hlower e he, hlower h hh, hlower r hr⟩
    · rw [lookup_setKey_ne _ _ _ _ (by decide),
        lookup_setKey_ne _ _ _ _ (by decide)]
      exact lookup_setKey_self _ _ _
    · rw [lookup_setKey_ne _ _ _ _ (by decide)]
      exact lookup_setKey_self _ _ _
    · exact lookup_setKey_self _ _ _
  · intro hor
    have hc : [e, h, r].dedup.length < 3 := (dedup_three_lt e h r).mpr hor
    simp [saveKeys, hc]

theorem saveKeys_lowercase_witness :
    (saveKeys [] "X" "Y" "3").2 = false ∧
      lookupKey (saveKeys [] "X" "Y" "3").1 "extractKey" =
        some (.str "x") ∧
      pyLower "3" ∈ lowerKeyChoices := by
  have h := (saveKeys_lowercase [] "X" "Y" "3"
    (by decide) (by decide) (by decide)).1 ⟨by decide, by decide, by decide⟩
  exact ⟨h.1, h.2.1, h.2.2.2.2.2.2⟩

/-- Claim C5 counterexample: with texts `"5"`, `"abc"`, `"7"`, `"9"` the
warning is shown, yet `soonValue` has already been updated from its prior
value 10 to 5 — the batch is not discarded as a whole. -/
theorem showDialogNumeric_counterexample :
    (showDialogNumeric defaults "5" "abc" "7" "9").2 = true ∧
      lookupKey (showDialogNumeric defaults "5" "abc" "7" "9").1
        "soonValue" = some (.int 5) ∧
      lookupKey defaults "soonValue" = some (.int 10) :=
  ⟨rfl, rfl, rfl⟩

/-- Claim C5 as amended: the four assignments run in the fixed order
soonValue, laterValue, extractValue, maxWidth; the first text that fails
integer parsing shows the warning and aborts that assignment and all later
ones, while every assignment before the failure keeps its new parsed
value; when all four parse no warning is shown and all four are updated. -/
theorem showDialogNumeric_first_failure (m : List (String × JValue))
    (s l x w : String) :
    ((showDialogNumeric m s l x w).2 = false ↔
      ((parseInt? s).isSome ∧ (parseInt? l).isSome ∧
        (parseInt? x).isSome ∧ (parseInt? w).isSome)) ∧
    (parseInt? s = none → showDialogNumeric m s l x w = (m, true)) ∧
    (∀ sv, parseInt? s = some sv →
      lookupKey (showDialogNumeric m s l x w).1 "soonValue" =
        some (.int sv)) ∧
    (∀ sv lv, parseInt? s = some sv → parseInt? l = some lv →
      lookupKey (showDialogNumeric m s l x w).1 "laterValue" =
        some (.int lv)) ∧
    (∀ sv lv xv, parseInt? s = some sv → parseInt? l = some lv →
      parseInt? x = some xv →
      lookupKey (showDialogNumeric m s l x w).1 "extractValue" =
        some (.int xv)) ∧
    (∀ sv lv xv wv, parseInt? s = some sv → parseInt? l = some lv →
      parseInt? x = some xv → parseInt? w = some wv →
      lookupKey (showDialogNumeric m s l x w).1 "maxWidth" =
        some (.int wv)) ∧
    (parseInt? l = none →
      lookupKey (showDialogNumeric m s l x w).1 "laterValue" =
          lookupKey m "laterValue" ∧
      lookupKey (showDialogNumeric m s l x w).1 "extractValue" =
          lookupKey m "extractValue" ∧
      lookupKey (showDialogNumeric m s l x w).1 "maxWidth" =
          lookupKey m "maxWidth") ∧
    (parseInt? x = none →
      lookupKey (showDialogNumeric m s l x w).1 "extractValue" =
          lookupKey m "extractValue" ∧
      lookupKey (showDialogNumeric m s l x w).1 "maxWidth" =
          lookupKey m "maxWidth") ∧
    (parseInt? w = none →
      lookupKey (showDialogNumeric m s l x w).1 "maxWidth" =
        lookupKey m "maxWidth") := by
  rcases hs : parseInt? s with _ | sv
  · have hres : showDialogNumeric m s l x w = (m, true) := by
      simp [showDialogNumeric, hs]
    simp [hres, hs]
  · rcases hl : parseInt? l with _ | lv
    · have hres : showDialogNumeric m s l x w =
          (setKey m "soonValue" (.int sv), true) := by
        simp [showDialogNumeric, hs, hl]
      refine ⟨by simp [hres, hl], by simp [hs], ?_, by simp [hl],
        by simp [hl], by simp [hl], ?_, ?_, ?_⟩
      · intro sv' hsv
        have hv := Option.some.inj hsv
        subst hv
        rw [hres]
        exact lookup_setKey_self _ _ _
      · intro _
        rw [hres]
        exact ⟨lookup_setKey_ne _ _ _ _ (by decide),
          lookup_setKey_ne _ _ _ _ (by decide),
          lookup_setKey_ne _ _ _ _ (by decide)⟩
      · intro _
        rw [hres]
        exact ⟨lookup_setKey_ne _ _ _ _ (by decide),
          lookup_setKey_ne _ _ _ _ (by decide)⟩
      · intro _
        rw [hres]
        exact lookup_setKey_ne _ _ _ _ (by decide)
    · rcases hx : parseInt? x with _ | xv
      · have hres : showDialogNumeric m s l x w =
            (setKey (setKey m "soonValue" (.int sv))
              "laterValue" (.int lv), true) := by
          simp [showDialogNumeric, hs, hl, hx]
        refine ⟨by simp [hres, hx], by simp [hs], ?_, ?_,
          by simp [hx], by simp [hx], by simp [hl], ?_, ?_⟩
        · intro sv' hsv
          have hv := Option.some.inj hsv
          subst hv
          rw [hres, lookup_setKey_ne _ _ _ _ (by decide)]
          exact lookup_setKey_self _ _ _
        · intro sv' lv' _ hlv
          have hv := Option.some.inj hlv
          subst hv
          rw [hres]
          exact lookup_setKey_self _ _ _
        · intro _
          rw [hres]
          exact ⟨by
              rw [lookup_setKey_ne _ _ _ _ (by decide)]
              exact lookup_setKey_ne _ _ _ _ (by decide),
            by
              rw [lookup_setKey_ne _ _ _ _ (by decide)]
              exact lookup_setKey_ne _ _ _ _ (by decide)⟩
        · intro _
          rw [hres, lookup_setKey_ne _ _ _ _ (by decide)]
          exact lookup_setKey_ne _ _ _ _ (by decide)
      · rcases hw : parseInt? w with _ | wv
        · have hres : showDialogNumeric m s l x w =
              (setKey (setKey (setKey m "soonValue" (.int sv))
                  "laterValue" (.int lv))
                "extractValue" (.int xv), true) := by
            simp [showDialogNumeric, hs, hl, hx, hw]
          refine ⟨by simp [hres, hw], by simp [hs], ?_, ?_, ?_,
            by simp [hw], by simp [hl], by simp [hx], ?_⟩
          · intro sv' hsv
            have hv := Option.some.inj hsv
            subst hv
            rw [hres, lookup_setKey_ne _ _ _ _ (by decide),
              lookup_setKey_ne _ _ _ _ (by decide)]
            exact lookup_setKey_self _ _ _
          · intro sv' lv' _ hlv
            have hv := Option.some.inj hlv
            subst hv
            rw [hres, lookup_setKey_ne _ _ _ _ (by decide)]
            exact lookup_setKey_self _ _ _
          · intro sv' lv' xv' _ _ hxv
            have hv := Option.some.inj hxv
            subst hv
            rw [hres]
            exact lookup_setKey_self _ _ _
          · intro _
            rw [hres, lookup_setKey_ne _ _ _ _ (by decide),
              lookup_setKey_ne _ _ _ _ (by decide)]
            exact lookup_setKey_ne _ _ _ _ (by decide)
        · have hres : showDialogNumeric m s l x w =
              (setKey (setKey (setKey (setKey m "soonValue" (.int sv))
                    "laterValue" (.int lv))
                  "extractValue" (.int xv))
                "maxWidth" (.int wv), false) := by
            simp [showDialogNumeric, hs, hl, hx, hw]
          refine ⟨by simp [hres, hs, hl, hx, hw], by simp [hs], ?_, ?_, ?_,
            ?_, by simp [hl], by simp [hx], by simp [hw]⟩
          · intro sv' hsv
            have hv := Option.some.inj hsv
            subst hv
            rw [hres, lookup_setKey_ne _ _ _ _ (by decide),
              lookup_setKey_ne _ _ _ _ (by decide),
              lookup_setKey_ne _ _ _ _ (by decide)]
            exact lookup_setKey_self _ _ _
          · intro sv' lv' _ hlv
            have hv := Option.some.inj hlv
            subst hv
            rw [hres, lookup_setKey_ne _ _ _ _ (by decide),
              lookup_setKey_ne _ _ _ _ (by decide)]
            exact lookup_setKey_self _ _ _
          · intro sv' lv' xv' _ _ hxv
            have hv := Option.some.inj hxv
            subst hv
            rw [hres, lookup_setKey_ne _ _ _ _ (by decide)]
            exact lookup_setKey_self _ _ _
          · intro sv' lv' xv' wv' _ _ _ hwv
            have hv := Option.some.inj hwv
            subst hv
            rw [hres]
            exact lookup_setKey_self _ _ _

theorem showDialogNumeric_first_failure_witness :
    lookupKey (showDialogNumeric [] "1" "2" "3" "4").1 "maxWidth" =
      some (.int 4) :=
  (showDialogNumeric_first_failure [] "1" "2" "3" "4").2.2.2.2.2.1
    1 2 3 4 rfl rfl rfl rfl
